import Mathlib

/-!
# Verification of the sitelert alert engine and probe executors

Shallow embedding of the Go sources of the `sitelert` repository:

* `internal/alerting/engine.go` — per-service alert state machine
  (`Engine.HandleResult`), route compilation (`compilePolicy`, `trimAll`,
  `NewEngine`) and route resolution (`Engine.resolveRoute`);
* `internal/checks/tcp.go` — `TCPChecker.Check` and `HTTPChecker.Check`
  result construction;
* the email builder (`buildEmail`, `writeHeader`, `sanitizeHeader`).

Go `time.Time` instants are modelled as integers (nanoseconds); the Go zero
time, which the code only ever tests through `Time.IsZero`, is modelled as
`Option`'s `none` (a real `time.Now()` is never the zero time).  Go
`time.Duration` is an integer number of nanoseconds.
-/

namespace Sitelert

/-- Go `time.Duration` (nanoseconds). -/
abbrev Duration := Int

/-- A Go `time.Time` instant (nanoseconds since epoch). -/
abbrev GoTime := Int

/-- `AlertState` string constants from `engine.go` (`"UNKNOWN"`, `"UP"`,
`"DOWN"`), modelled as a closed sum. -/
inductive AlertState where
  | unknown
  | up
  | down
deriving DecidableEq, Repr

/-- `serviceState` from `engine.go`.  `LastDownAlertAt = none` models the Go
zero `time.Time` (the `IsZero` test); `LastResultAt` likewise. -/
structure serviceState where
  State : AlertState
  ConsecutiveFailures : Int
  LastDownAlertAt : Option GoTime
  DownNotified : Bool
  LastResultAt : Option GoTime
deriving DecidableEq, Repr

/-- `&serviceState{State: StateUnknown}`: the state freshly inserted into the
engine's map, all other fields at their Go zero values. -/
def freshServiceState : serviceState :=
  { State := .unknown
    ConsecutiveFailures := 0
    LastDownAlertAt := none
    DownNotified := false
    LastResultAt := none }

/-- `compiledPolicy` from `engine.go`. -/
structure compiledPolicy where
  failureThreshold : Int
  cooldown : Duration
  recoveryAlert : Bool
deriving DecidableEq, Repr

/-- `compiledRoute` from `engine.go`. -/
structure compiledRoute where
  matchServiceIDs : List String
  notify : List String
  policy : compiledPolicy
deriving DecidableEq, Repr

/-- Which payloads `HandleResult` stages in one call: the local booleans
`sendDown`, `sendDownAgain`, `sendRecovery` of `Engine.HandleResult`.  The
code dispatches the staged payload after releasing the lock iff one of them
is set. -/
structure stepOut where
  sendDown : Bool
  sendDownAgain : Bool
  sendRecovery : Bool
deriving DecidableEq, Repr

/-- No payload staged. -/
def noSend : stepOut := ⟨false, false, false⟩

/-- The `canSendDown` expression of `Engine.HandleResult`:
`route.policy.cooldown <= 0 || st.LastDownAlertAt.IsZero() ||
 now.Sub(st.LastDownAlertAt) >= route.policy.cooldown`. -/
def canSendDown (p : compiledPolicy) (st : serviceState) (now : GoTime) : Bool :=
  decide (p.cooldown ≤ 0) ||
  st.LastDownAlertAt.isNone ||
  (match st.LastDownAlertAt with
   | none => true
   | some t => decide (now - t ≥ p.cooldown))

/-- The state-transition core of `Engine.HandleResult` (engine.go lines
216-292): everything the call does to one service's `serviceState` under the
lock, given the resolved policy, `res.Success` and `now := time.Now()`.
Returns the updated state together with the staged-payload flags. -/
def handleResultState (p : compiledPolicy) (st0 : serviceState) (success : Bool)
    (now : GoTime) : serviceState × stepOut :=
  let st := { st0 with LastResultAt := some now }
  if success then
    -- Reset failure streak
    let st := { st with ConsecutiveFailures := 0 }
    if st.State = .down then
      -- Recovery alert if we were DOWN and had previously sent a down alert
      let sendRecovery := p.recoveryAlert && st.DownNotified
      -- new episode begins; reset flag, then State = StateUp
      ({ st with DownNotified := false, State := .up },
       { noSend with sendRecovery := sendRecovery })
    else
      ({ st with State := .up }, noSend)
  else
    -- failure case
    let st := { st with ConsecutiveFailures := st.ConsecutiveFailures + 1 }
    if st.ConsecutiveFailures < p.failureThreshold then
      -- Keep state UP unless already DOWN
      if st.State = .unknown then ({ st with State := .up }, noSend)
      else (st, noSend)
    else
      -- Threshold reached: service is DOWN
      let wasDown := st.State = .down
      let st := { st with State := .down }
      let canSend := canSendDown p st now
      if !st.DownNotified && canSend then
        -- First DOWN alert of an outage episode
        ({ st with DownNotified := true, LastDownAlertAt := some now },
         { noSend with sendDown := true })
      else if wasDown && st.DownNotified && canSend then
        -- Optional reminder while still down (cooldown elapsed)
        ({ st with LastDownAlertAt := some now },
         { noSend with sendDownAgain := true })
      else
        (st, noSend)

/-- Fold `handleResultState` over a trace of `(Result.Success, now)` pairs:
the per-service state after a sequence of `HandleResult` calls. -/
def runState (p : compiledPolicy) (st : serviceState) (tr : List (Bool × GoTime)) :
    serviceState :=
  tr.foldl (fun st e => (handleResultState p st e.1 e.2).1) st

/-! ## Route compilation and resolution (`engine.go`) -/

/-- The character class of Go's `unicode.IsSpace` restricted to ASCII
(`' '`, `'\t'`, `'\n'`, `'\v'`, `'\f'`, `'\r'`); the configuration strings
the code trims are ASCII. -/
def isGoSpace (c : Char) : Bool :=
  c = ' ' || c = '\t' || c = '\n' || c = Char.ofNat 11 || c = Char.ofNat 12 || c = '\r'

/-- Go `strings.TrimSpace` on a character list. -/
def trimSpaceL (l : List Char) : List Char :=
  ((l.dropWhile isGoSpace).reverse.dropWhile isGoSpace).reverse

/-- Go `strings.TrimSpace`. -/
def goTrimSpace (s : String) : String :=
  ⟨trimSpaceL s.data⟩

/-- `trimAll` from `engine.go`: trim every entry, drop the empty ones. -/
def trimAll (l : List String) : List String :=
  (l.map goTrimSpace).filter (fun s => s ≠ "")

/-- `config.RoutePolicy` (raw YAML policy). -/
structure RoutePolicy where
  FailureThreshold : Int
  Cooldown : String
  RecoveryAlert : Bool
deriving DecidableEq, Repr

/-- `config.RouteMatch`. -/
structure RouteMatch where
  ServiceIDs : List String
deriving DecidableEq, Repr

/-- `config.Route` (raw route). -/
structure Route where
  Match : RouteMatch
  Notify : List String
  Policy : RoutePolicy
deriving DecidableEq, Repr

/-- `compilePolicy` from `engine.go`.  Go's `time.ParseDuration` is a
standard-library external; it is passed in as a parameter
(`parseDuration s = some d` models `err == nil` with result `d`). -/
def compilePolicy (parseDuration : String → Option Duration) (p : RoutePolicy) :
    compiledPolicy :=
  -- defaults
  let out : compiledPolicy :=
    { failureThreshold := 1, cooldown := 0, recoveryAlert := p.RecoveryAlert }
  let out :=
    if p.FailureThreshold > 0 then { out with failureThreshold := p.FailureThreshold }
    else out
  if goTrimSpace p.Cooldown ≠ "" then
    match parseDuration p.Cooldown with
    | some d => if d > 0 then { out with cooldown := d } else out
    | none => out
  else out

/-- The Go zero value of `compiledPolicy` (zero-value `resolvedRoute.policy`
in the early returns of `resolveRoute`). -/
def zeroPolicy : compiledPolicy := ⟨0, 0, false⟩

/-- The Go zero value of `compiledRoute` (out-of-range slice index is
unreachable; see `routeIndex_mem_lt`). -/
def zeroRoute : compiledRoute := ⟨[], [], zeroPolicy⟩

/-- One iteration of the inner route-index loop of `NewEngine`:
`if id == "" { continue }; e.routeIndex[id] = append(e.routeIndex[id], i)`.
The Go map with `nil` default is modelled as a total function with `[]`
default. -/
def insStep (i : Nat) (m : String → List Nat) (id : String) : String → List Nat :=
  if id = "" then m else fun q => if q = id then m q ++ [i] else m q

/-- The route-index contribution of route `i`:
`for _, id := range cr.matchServiceIDs { ... }`. -/
def indexInsert (m : String → List Nat) (i : Nat) (r : compiledRoute) :
    String → List Nat :=
  r.matchServiceIDs.foldl (insStep i) m

/-- `Engine` from `engine.go`: the compiled routes, the service-ID route
index, and the per-service state map (the log, HTTP client and channel table
do not affect the verified logic). -/
structure Engine where
  routes : List compiledRoute
  routeIndex : String → List Nat
  state : List (String × serviceState)

/-- The `service_id -> route indices` index built by the `NewEngine` loop
`for i, r := range cfg.Routes { ... for _, id := range cr.matchServiceIDs
   { ... e.routeIndex[id] = append(e.routeIndex[id], i) } }`. -/
def buildIndex (routes : List compiledRoute) : String → List Nat :=
  routes.enum.foldl (fun m p => indexInsert m p.1 p.2) (fun _ => [])

/-- `NewEngine` from `engine.go`: compile each raw route once and build the
`service_id -> route indices` index. -/
def NewEngine (parseDuration : String → Option Duration) (cfgRoutes : List Route) :
    Engine :=
  let routes := cfgRoutes.map (fun r =>
    { matchServiceIDs := trimAll r.Match.ServiceIDs
      notify := trimAll r.Notify
      policy := compilePolicy parseDuration r.Policy : compiledRoute })
  { routes := routes
    routeIndex := buildIndex routes
    state := [] }

/-- `resolvedRoute` from `engine.go`. -/
structure resolvedRoute where
  notify : List String
  policy : compiledPolicy
  ok : Bool
deriving DecidableEq, Repr

/-- The channel union of the `resolveRoute` inner loop:
`if !slices.Contains(notify, ch) { notify = append(notify, ch) }`. -/
def unionStep (n : List String) (ch : String) : List String :=
  if n.contains ch then n else n ++ [ch]

/-- The conservative policy merge of `resolveRoute` (non-first matching
route): `failure_threshold`/`cooldown` keep the larger value,
`recovery_alert` is or-ed. -/
def mergePolicy (policy q : compiledPolicy) : compiledPolicy :=
  let policy :=
    if q.failureThreshold > policy.failureThreshold then
      { policy with failureThreshold := q.failureThreshold }
    else policy
  let policy :=
    if q.cooldown > policy.cooldown then { policy with cooldown := q.cooldown }
    else policy
  if q.recoveryAlert then { policy with recoveryAlert := true } else policy

/-- The body of the `for _, idx := range idxs` loop of `Engine.resolveRoute`,
given the route `r := e.routes[idx]`: union the route's channels into
`notify` (first-seen order), take the first matching route's policy verbatim,
merge later ones conservatively.  The accumulator is `(notify, policy, first)`. -/
def routeFoldStep (acc : List String × compiledPolicy × Bool) (r : compiledRoute) :
    List String × compiledPolicy × Bool :=
  let notify := r.notify.foldl unionStep acc.1
  if acc.2.2 then (notify, r.policy, false)
  else (notify, mergePolicy acc.2.1 r.policy, false)

/-- One iteration of the `resolveRoute` loop: fetch `e.routes[idx]` (the
index is always in range by construction) and apply the loop body. -/
def resolveStep (routes : List compiledRoute)
    (acc : List String × compiledPolicy × Bool) (idx : Nat) :
    List String × compiledPolicy × Bool :=
  routeFoldStep acc (routes.getD idx zeroRoute)

/-- The spec-side "union of the notify lists, deduplicated preserving
first-seen order". -/
def dedupFirstSeen (l : List String) : List String :=
  l.foldl unionStep []

/-- The routes whose (compiled) match list contains the service ID. -/
def matchingRoutes (routes : List compiledRoute) (id : String) :
    List compiledRoute :=
  routes.filter (fun r => r.matchServiceIDs.contains id)

/-- `Engine.resolveRoute` from `engine.go`. -/
def resolveRoute (e : Engine) (serviceID : String) : resolvedRoute :=
  let idxs := e.routeIndex serviceID
  if idxs.isEmpty then { notify := [], policy := zeroPolicy, ok := false }
  else
    let acc := idxs.foldl (resolveStep e.routes)
      ([], { failureThreshold := 1, cooldown := 0, recoveryAlert := false }, true)
    if acc.1.isEmpty then { notify := [], policy := zeroPolicy, ok := false }
    else { notify := acc.1, policy := acc.2.1, ok := true }

/-! ## `Engine.HandleResult` at the state-map level -/

/-- Go map read `e.state[svc.ID]` on the association-list model. -/
def stateGet (m : List (String × serviceState)) (id : String) : Option serviceState :=
  (m.find? (fun kv => kv.1 == id)).map (fun kv => kv.2)

/-- Go map write `e.state[svc.ID] = st` (together with all mutations through
the `*serviceState` pointer, which land in the same entry). -/
def stateSet (m : List (String × serviceState)) (id : String) (st : serviceState) :
    List (String × serviceState) :=
  match m with
  | [] => [(id, st)]
  | kv :: rest => if kv.1 == id then (id, st) :: rest else kv :: stateSet rest id st

/-- `Engine.HandleResult` from `engine.go`: resolve the route (silently drop
when invalid), fetch-or-create the per-service state, run the transition
core, store the updated state.  The returned `stepOut` records which payload
(if any) is dispatched after the lock is released. -/
def HandleResult (e : Engine) (svcID : String) (success : Bool) (now : GoTime) :
    Engine × stepOut :=
  let route := resolveRoute e svcID
  if !route.ok then (e, noSend)
  else
    let st := (stateGet e.state svcID).getD freshServiceState
    let r := handleResultState route.policy st success now
    ({ e with state := stateSet e.state svcID r.1 }, r.2)

/-! ## Probe executors (`internal/checks`) -/

/-- `checks.Result` (`Latency`, a wall-clock measurement, is omitted: no
claim constrains it). -/
structure Result where
  Success : Bool
  StatusCode : Int
  Error : String
deriving DecidableEq, Repr

/-- The fields of `config.Service` that the probe-result logic reads (the
target/periodicity fields do not affect the verified logic). -/
structure Service where
  ID : String
  ExpectedStatus : List Int
  Contains : String
deriving DecidableEq, Repr

/-- The outcome of the network exchange inside `HTTPChecker.Check`:
request construction fails, the round trip fails, or a response arrives with
a status code, a body, and possibly a body-read error. -/
inductive HTTPOutcome where
  | buildErr (msg : String)
  | transportErr (msg : String)
  | response (statusCode : Int) (body : List Char) (readErr : Option String)
deriving DecidableEq, Repr

/-- `const maxBody = 1024 * 1024 // 1 MiB` in `HTTPChecker.Check`. -/
def maxBody : Nat := 1024 * 1024

/-- The `Contains` tail of `HTTPChecker.Check`: when `Contains` trims
non-empty, read up to 1 MiB of the body (`readErr` fails the probe) and
require the substring (`strings.Contains`). -/
def containsCheck (svc : Service) (code : Int) (body : List Char)
    (readErr : Option String) : Result :=
  if goTrimSpace svc.Contains ≠ "" then
    match readErr with
    | some m => { Success := false, StatusCode := code, Error := "read body: " ++ m }
    | none =>
      if !(decide (List.IsInfix svc.Contains.data (body.take maxBody))) then
        { Success := false, StatusCode := code
          Error := "response does not contain expected content" }
      else { Success := true, StatusCode := code, Error := "" }
  else { Success := true, StatusCode := code, Error := "" }

/-- `HTTPChecker.Check` from `internal/checks` (post-exchange result
construction; the exchange itself is the `HTTPOutcome`). -/
def HTTPCheck (svc : Service) (outcome : HTTPOutcome) : Result :=
  match outcome with
  | .buildErr msg =>
    { Success := false, StatusCode := 0, Error := "build request: " ++ msg }
  | .transportErr msg => { Success := false, StatusCode := 0, Error := msg }
  | .response code body readErr =>
    if svc.ExpectedStatus.length > 0 then
      if !(svc.ExpectedStatus.contains code) then
        { Success := false, StatusCode := code
          Error := "unexpected status " ++ toString code }
      else containsCheck svc code body readErr
    else
      if code < 200 || code ≥ 400 then
        { Success := false, StatusCode := code
          Error := "unexpected status " ++ toString code }
      else containsCheck svc code body readErr

/-- The outcome of the dial inside `TCPChecker.Check`. -/
inductive TCPOutcome where
  | dialErr (msg : String)
  | connected
deriving DecidableEq, Repr

/-- `TCPChecker.Check` from `internal/checks`: connect, close, report. -/
def TCPCheck (outcome : TCPOutcome) : Result :=
  match outcome with
  | .dialErr msg => { Success := false, StatusCode := 0, Error := msg }
  | .connected => { Success := true, StatusCode := 0, Error := "" }

/-! ## Email construction (`buildEmail`, `sanitizeHeader`) -/

/-- Go `strings.ReplaceAll(s, "\r\n", "\n")` (left-to-right, non-overlapping). -/
def replaceAllCRLF : List Char → List Char
  | '\r' :: '\n' :: rest => '\n' :: replaceAllCRLF rest
  | c :: rest => c :: replaceAllCRLF rest
  | [] => []

/-- Go `strings.ReplaceAll` with a single-character pattern. -/
def replaceChar (a b : Char) (l : List Char) : List Char :=
  l.map (fun c => if c = a then b else c)

/-- Go `strings.ReplaceAll(s, "\n", "\r\n")`. -/
def expandLFtoCRLF (l : List Char) : List Char :=
  l.flatMap (fun c => if c = '\n' then ['\r', '\n'] else [c])

/-- `sanitizeHeader`: replace CR and LF by spaces, then `strings.TrimSpace`. -/
def sanitizeHeader (s : List Char) : List Char :=
  trimSpaceL (replaceChar '\n' ' ' (replaceChar '\r' ' ' s))

/-- `writeHeader(b, k, v)`: append `k ++ ": " ++ v ++ CRLF` to the buffer. -/
def writeHeader (b k v : List Char) : List Char :=
  b ++ k ++ (": ").data ++ v ++ ['\r', '\n']

/-- The body normalisation of `buildEmail`: `\r\n` → `\n`, then `\r` → `\n`,
then `\n` → `\r\n`. -/
def normalizeBody (body : List Char) : List Char :=
  expandLFtoCRLF (replaceChar '\r' '\n' (replaceAllCRLF body))

/-- `buildEmail(from, to, subject, body)`.  The `Date` header value, produced
in Go by `time.Now().Format(time.RFC1123Z)` (a fixed CR/LF-free layout), is
an explicit parameter. -/
def buildEmail (dateStr fromHeader : List Char) (toHdrs : List (List Char))
    (subject body : List Char) : List Char :=
  let b : List Char := []
  let b := writeHeader b ("From").data fromHeader
  let b := writeHeader b ("To").data (List.intercalate (", ").data toHdrs)
  let b := writeHeader b ("Subject").data (sanitizeHeader subject)
  let b := writeHeader b ("Date").data dateStr
  let b := writeHeader b ("MIME-Version").data ("1.0").data
  let b := writeHeader b ("Content-Type").data ("text/plain; charset=\"utf-8\"").data
  let b := writeHeader b ("Content-Transfer-Encoding").data ("8bit").data
  let b := b ++ ['\r', '\n']
  let body := normalizeBody body
  let b := b ++ body
  if List.isSuffixOf ['\r', '\n'] body then b else b ++ ['\r', '\n']

/-- Split a message on CRLF (for stating header properties). -/
def splitCRLF : List Char → List (List Char)
  | '\r' :: '\n' :: rest => [] :: splitCRLF rest
  | c :: rest =>
    match splitCRLF rest with
    | [] => [[c]]
    | l :: ls => (c :: l) :: ls
  | [] => [[]]

/-- The CRLF-delimited header lines of a message: everything before the
first blank line. -/
def headerLines (msg : List Char) : List (List Char) :=
  (splitCRLF msg).takeWhile (fun l => !l.isEmpty)

/-- `crlfStrict l = true` iff in `l` every CR is immediately followed by LF
and every LF immediately preceded by CR: all line endings are CRLF. -/
def crlfStrict : List Char → Bool
  | [] => true
  | [c] => !(c == '\r' || c == '\n')
  | c1 :: c2 :: rest =>
    if c1 = '\r' then c2 == '\n' && crlfStrict rest
    else if c1 = '\n' then false
    else crlfStrict (c2 :: rest)

/-- `l` contains no carriage return and no line feed. -/
abbrev noCRLF (l : List Char) : Prop := '\r' ∉ l ∧ '\n' ∉ l

end Sitelert

namespace Sitelert

/-! ## Helper lemmas about `handleResultState` -/

theorem runState_append (p : compiledPolicy) (st : serviceState)
    (a b : List (Bool × GoTime)) :
    runState p st (a ++ b) = runState p (runState p st a) b := by
  simp [runState, List.foldl_append]

theorem runState_cons (p : compiledPolicy) (st : serviceState) (e : Bool × GoTime)
    (tr : List (Bool × GoTime)) :
    runState p st (e :: tr) = runState p (handleResultState p st e.1 e.2).1 tr := rfl

/-- The `DownNotified ⇒ State = Down` invariant holds for the freshly created
state. -/
theorem downNotified_inv_fresh :
    freshServiceState.DownNotified = true → freshServiceState.State = .down := by
  intro h
  simp [freshServiceState] at h

/-- `handleResultState` preserves the `DownNotified ⇒ State = Down`
invariant. -/
theorem downNotified_inv_step (p : compiledPolicy) (st : serviceState) (success : Bool)
    (now : GoTime) (h : st.DownNotified = true → st.State = .down) :
    (handleResultState p st success now).1.DownNotified = true →
    (handleResultState p st success now).1.State = .down := by
  unfold handleResultState
  cases success <;> dsimp only <;> (repeat' split) <;> simp_all

/-- The invariant holds at every state reachable from an invariant state. -/
theorem downNotified_inv_run (p : compiledPolicy) (st : serviceState)
    (tr : List (Bool × GoTime)) (h : st.DownNotified = true → st.State = .down) :
    (runState p st tr).DownNotified = true → (runState p st tr).State = .down := by
  induction tr generalizing st with
  | nil => exact h
  | cons e tr ih =>
    rw [runState_cons]
    exact ih _ (downNotified_inv_step p st e.1 e.2 h)

/-- A down payload (first-down or still-down) is staged only when the
cooldown gate `canSendDown` is open.  (`canSendDown` only reads
`policy.cooldown` and `LastDownAlertAt`, which the call has not modified at
the point the code evaluates it, so stating it over the pre-call state is
exact.) -/
theorem staged_canSend (p : compiledPolicy) (st : serviceState) (success : Bool)
    (now : GoTime)
    (h : (handleResultState p st success now).2.sendDown = true ∨
         (handleResultState p st success now).2.sendDownAgain = true) :
    canSendDown p st now = true := by
  unfold handleResultState at h
  cases success <;> dsimp only at h <;> (repeat' split at h) <;>
    simp_all [noSend, canSendDown]

/-- Staging a down payload records `LastDownAlertAt = now`. -/
theorem staged_last (p : compiledPolicy) (st : serviceState) (success : Bool)
    (now : GoTime)
    (h : (handleResultState p st success now).2.sendDown = true ∨
         (handleResultState p st success now).2.sendDownAgain = true) :
    (handleResultState p st success now).1.LastDownAlertAt = some now := by
  unfold handleResultState at h ⊢
  cases success <;> dsimp only at h ⊢ <;> (repeat' split) <;> simp_all [noSend]

/-- A call that stages no down payload leaves `LastDownAlertAt` unchanged. -/
theorem notStaged_last (p : compiledPolicy) (st : serviceState) (success : Bool)
    (now : GoTime)
    (h : ¬((handleResultState p st success now).2.sendDown = true ∨
           (handleResultState p st success now).2.sendDownAgain = true)) :
    (handleResultState p st success now).1.LastDownAlertAt = st.LastDownAlertAt := by
  unfold handleResultState at h ⊢
  cases success <;> dsimp only at h ⊢ <;> (repeat' split) <;> simp_all [noSend]

/-- If a down payload is staged while `LastDownAlertAt = some t`, then the
cooldown is non-positive or at least the cooldown has elapsed since `t`. -/
theorem staged_gap (p : compiledPolicy) (st : serviceState) (success : Bool)
    (now t : GoTime)
    (h : (handleResultState p st success now).2.sendDown = true ∨
         (handleResultState p st success now).2.sendDownAgain = true)
    (ht : st.LastDownAlertAt = some t) :
    p.cooldown ≤ 0 ∨ now - t ≥ p.cooldown := by
  have hc := staged_canSend p st success now h
  simp [canSendDown, ht] at hc
  tauto

/-- A first-down payload is staged only when `DownNotified` was false. -/
theorem sendDown_pre (p : compiledPolicy) (st : serviceState) (success : Bool)
    (now : GoTime)
    (h : (handleResultState p st success now).2.sendDown = true) :
    st.DownNotified = false := by
  unfold handleResultState at h
  cases success <;> dsimp only at h <;> (repeat' split at h) <;> simp_all [noSend]

/-- Staging a first-down payload sets `DownNotified`. -/
theorem sendDown_post (p : compiledPolicy) (st : serviceState) (success : Bool)
    (now : GoTime)
    (h : (handleResultState p st success now).2.sendDown = true) :
    (handleResultState p st success now).1.DownNotified = true := by
  unfold handleResultState at h ⊢
  cases success <;> dsimp only at h ⊢ <;> (repeat' split) <;> simp_all [noSend]

/-- `DownNotified` survives any call that is not a success received in the
Down state (the only path that resets it). -/
theorem dn_persist_step (p : compiledPolicy) (st : serviceState) (success : Bool)
    (now : GoTime) (hdn : st.DownNotified = true)
    (hnr : ¬(success = true ∧ st.State = .down)) :
    (handleResultState p st success now).1.DownNotified = true := by
  unfold handleResultState
  cases success <;> dsimp only <;> (repeat' split) <;> simp_all [noSend]

/-- Along any trace starting with `DownNotified = true`, either the flag is
still set at the end, or some step of the trace was a success received in the
Down state (a Down→Up transition, i.e. the outage episode ended). -/
theorem dn_persist_run (p : compiledPolicy) (st : serviceState)
    (tr : List (Bool × GoTime)) (hdn : st.DownNotified = true) :
    (runState p st tr).DownNotified = true ∨
    ∃ a k b, tr = a ++ k :: b ∧ k.1 = true ∧ (runState p st a).State = .down := by
  induction tr generalizing st with
  | nil => exact Or.inl hdn
  | cons e tr ih =>
    by_cases hk : e.1 = true ∧ st.State = .down
    · exact Or.inr ⟨[], e, tr, rfl, hk.1, hk.2⟩
    · have hdn' := dn_persist_step p st e.1 e.2 hdn hk
      rcases ih ((handleResultState p st e.1 e.2).1) hdn' with h | ⟨a, k, b, rfl, hks, hst⟩
      · left
        simpa [runState] using h
      · right
        exact ⟨e :: a, k, b, rfl, hks, by simpa [runState] using hst⟩

/-- On an Up→Down transition with a non-positive cooldown, the first-down
payload is staged (given the `DownNotified ⇒ Down` invariant). -/
theorem upDown_sendDown (p : compiledPolicy) (st : serviceState) (now : GoTime)
    (hcool : p.cooldown ≤ 0)
    (hinv : st.DownNotified = true → st.State = .down)
    (hup : st.State = .up)
    (hdown : (handleResultState p st false now).1.State = .down) :
    (handleResultState p st false now).2.sendDown = true := by
  have hdn : st.DownNotified = false := by
    cases hDN : st.DownNotified
    · rfl
    · have := hinv hDN
      rw [this] at hup
      exact absurd hup (by simp)
  unfold handleResultState at hdown ⊢
  dsimp only at hdown ⊢
  (repeat' split) <;> simp_all [noSend, canSendDown]

end Sitelert

namespace Sitelert

/-! ## Claim theorems: alert-engine state machine -/

/-- C1 (amended).  For every run of the alert engine with a resolved failure
threshold T ≥ 1, every outage episode (Up→Down to Down→Up) produces **at
most** one first-down payload, and when the resolved cooldown is ≤ 0 it
produces **exactly** one.  Part 1: if two calls both stage a first-down
payload, then strictly between them some call received a success while the
state was Down — a Down→Up transition, i.e. the earlier outage episode had
ended.  Part 2: with cooldown ≤ 0, the call that moves a service from Up to
Down stages a first-down payload (with a positive cooldown it may not — see
the counterexample — so an episode can produce zero). -/
theorem C1_first_down_once_per_episode :
    (∀ (p : compiledPolicy) (st0 : serviceState) (tr1 : List (Bool × GoTime))
        (e : Bool × GoTime) (tr2 : List (Bool × GoTime)) (e' : Bool × GoTime),
      1 ≤ p.failureThreshold →
      (handleResultState p (runState p st0 tr1) e.1 e.2).2.sendDown = true →
      (handleResultState p (runState p st0 (tr1 ++ e :: tr2)) e'.1 e'.2).2.sendDown = true →
      ∃ a k b, tr2 = a ++ k :: b ∧ k.1 = true ∧
        (runState p (handleResultState p (runState p st0 tr1) e.1 e.2).1 a).State = .down) ∧
    (∀ (p : compiledPolicy) (tr : List (Bool × GoTime)) (now : GoTime),
      1 ≤ p.failureThreshold → p.cooldown ≤ 0 →
      (runState p freshServiceState tr).State = .up →
      (handleResultState p (runState p freshServiceState tr) false now).1.State = .down →
      (handleResultState p (runState p freshServiceState tr) false now).2.sendDown = true) := by
  constructor
  · intro p st0 tr1 e tr2 e' hth h1 h2
    have hpost := sendDown_post p (runState p st0 tr1) e.1 e.2 h1
    have hrun : runState p st0 (tr1 ++ e :: tr2) =
        runState p (handleResultState p (runState p st0 tr1) e.1 e.2).1 tr2 := by
      rw [runState_append, runState_cons]
    rw [hrun] at h2
    rcases dn_persist_run p _ tr2 hpost with hdn | hex
    · exact absurd (sendDown_pre p _ e'.1 e'.2 h2) (by simp [hdn])
    · exact hex
  · intro p tr now hth hcool hup hdown
    exact upDown_sendDown p _ now hcool
      (downNotified_inv_run p freshServiceState tr downNotified_inv_fresh) hup hdown

theorem C1_first_down_once_per_episode_witness :
    (∃ a k b, ([((true : Bool), (1 : GoTime))] : List (Bool × GoTime)) = a ++ k :: b ∧
      k.1 = true ∧
      (runState ⟨1, 0, false⟩
        (handleResultState ⟨1, 0, false⟩ (runState ⟨1, 0, false⟩ freshServiceState [])
          (false, (0 : GoTime)).1 (false, (0 : GoTime)).2).1 a).State = .down) ∧
    (handleResultState ⟨1, 0, false⟩
      (runState ⟨1, 0, false⟩ freshServiceState [(true, 0)]) false 5).2.sendDown = true :=
  ⟨C1_first_down_once_per_episode.1 ⟨1, 0, false⟩ freshServiceState [] (false, 0)
      [(true, 1)] (false, 2) (by decide) (by decide) (by decide),
   C1_first_down_once_per_episode.2 ⟨1, 0, false⟩ [(true, 0)] 5 (by decide) (by decide)
      (by decide) (by decide)⟩

/-- C1 counterexample.  The claim as stated ("exactly one first-down payload
per outage episode, for any cooldown") is false: with threshold 1 and
cooldown 100, the run failure@0, success@10, failure@20, success@30 contains
a second outage episode — the Up→Down transition at the step at time 20,
ended by the Down→Up transition at the step at time 30 — whose only call
(the one at time 20) stages nothing, because `LastDownAlertAt = 0` from the
first episode and `20 - 0 < 100` closes the cooldown gate.  That episode
produces zero first-down payloads. -/
theorem C1_counterexample :
    (runState ⟨1, 100, false⟩ freshServiceState [(false, 0), (true, 10)]).State = .up ∧
    (handleResultState ⟨1, 100, false⟩
      (runState ⟨1, 100, false⟩ freshServiceState [(false, 0), (true, 10)])
      false 20).1.State = .down ∧
    (handleResultState ⟨1, 100, false⟩
      (handleResultState ⟨1, 100, false⟩
        (runState ⟨1, 100, false⟩ freshServiceState [(false, 0), (true, 10)])
        false 20).1 true 30).1.State = .up ∧
    (handleResultState ⟨1, 100, false⟩
      (runState ⟨1, 100, false⟩ freshServiceState [(false, 0), (true, 10)])
      false 20).2.sendDown = false ∧
    (handleResultState ⟨1, 100, false⟩
      (runState ⟨1, 100, false⟩ freshServiceState [(false, 0), (true, 10)])
      false 20).2.sendDownAgain = false := by
  decide

/-- C2.  A down payload (first-down or still-down) is staged only when
`canSend` holds — `cooldown ≤ 0`, or `LastDownAlertAt` is the zero time, or
`now - LastDownAlertAt ≥ cooldown`; a staging call sets
`LastDownAlertAt = now` and a non-staging call leaves it unchanged, so
between two successively dispatched down payloads at least the cooldown has
elapsed since `LastDownAlertAt` was last set (trivially so when
cooldown ≤ 0). -/
theorem C2_cooldown_gate (p : compiledPolicy) (st : serviceState) (success : Bool)
    (now : GoTime) :
    (((handleResultState p st success now).2.sendDown = true ∨
      (handleResultState p st success now).2.sendDownAgain = true) →
      canSendDown p st now = true) ∧
    (((handleResultState p st success now).2.sendDown = true ∨
      (handleResultState p st success now).2.sendDownAgain = true) →
      (handleResultState p st success now).1.LastDownAlertAt = some now) ∧
    (¬((handleResultState p st success now).2.sendDown = true ∨
       (handleResultState p st success now).2.sendDownAgain = true) →
      (handleResultState p st success now).1.LastDownAlertAt = st.LastDownAlertAt) ∧
    (∀ t : GoTime,
      ((handleResultState p st success now).2.sendDown = true ∨
       (handleResultState p st success now).2.sendDownAgain = true) →
      st.LastDownAlertAt = some t →
      p.cooldown ≤ 0 ∨ now - t ≥ p.cooldown) :=
  ⟨staged_canSend p st success now,
   staged_last p st success now,
   notStaged_last p st success now,
   fun t h ht => staged_gap p st success now t h ht⟩

theorem C2_cooldown_gate_witness :
    canSendDown ⟨1, 5, false⟩ freshServiceState 7 = true ∧
    (handleResultState ⟨1, 5, false⟩ freshServiceState false 7).1.LastDownAlertAt = some 7 ∧
    (handleResultState ⟨2, 5, false⟩ freshServiceState false 3).1.LastDownAlertAt =
      freshServiceState.LastDownAlertAt ∧
    ((5 : Int) ≤ 0 ∨
      (20 : Int) - 7 ≥ (⟨1, 5, false⟩ : compiledPolicy).cooldown) :=
  ⟨(C2_cooldown_gate ⟨1, 5, false⟩ freshServiceState false 7).1 (by decide),
   (C2_cooldown_gate ⟨1, 5, false⟩ freshServiceState false 7).2.1 (by decide),
   (C2_cooldown_gate ⟨2, 5, false⟩ freshServiceState false 3).2.2.1 (by decide),
   (C2_cooldown_gate ⟨1, 5, false⟩
      (handleResultState ⟨1, 5, false⟩ freshServiceState false 7).1 false 20).2.2.2
      7 (by decide) (by decide)⟩

/-- C3.  On a successful `Result`, `HandleResult` resets
`ConsecutiveFailures` to 0 and sets `State = Up`; it stages a recovery
payload iff the prior `State` was Down, the resolved policy has
`RecoveryAlert`, and `DownNotified` was set; and when the prior `State` was
Down, `DownNotified` is reset to false whether or not a payload is staged. -/
theorem C3_success_transition (p : compiledPolicy) (st : serviceState) (now : GoTime) :
    (handleResultState p st true now).1.ConsecutiveFailures = 0 ∧
    (handleResultState p st true now).1.State = .up ∧
    ((handleResultState p st true now).2.sendRecovery = true ↔
      st.State = .down ∧ p.recoveryAlert = true ∧ st.DownNotified = true) ∧
    (st.State = .down → (handleResultState p st true now).1.DownNotified = false) := by
  unfold handleResultState
  dsimp only
  (repeat' split) <;> simp_all [noSend]

theorem C3_success_transition_witness :
    (handleResultState ⟨2, 0, true⟩ ⟨.down, 3, some 0, true, some 0⟩ true 5).2.sendRecovery
      = true ∧
    (handleResultState ⟨2, 0, true⟩ ⟨.down, 3, some 0, true, some 0⟩ true 5).1.DownNotified
      = false :=
  ⟨(C3_success_transition ⟨2, 0, true⟩ ⟨.down, 3, some 0, true, some 0⟩ 5).2.2.1.mpr
      ⟨by decide, by decide, by decide⟩,
   (C3_success_transition ⟨2, 0, true⟩ ⟨.down, 3, some 0, true, some 0⟩ 5).2.2.2
      (by decide)⟩

/-- C9.  `DownNotified ⇒ State = Down` is an invariant of the per-service
state: it holds for the freshly created state and is preserved by every
`HandleResult` call, for every `Result` and every resolved policy. -/
theorem C9_down_notified_invariant :
    (freshServiceState.DownNotified = true → freshServiceState.State = .down) ∧
    (∀ (p : compiledPolicy) (st : serviceState) (success : Bool) (now : GoTime),
      (st.DownNotified = true → st.State = .down) →
      ((handleResultState p st success now).1.DownNotified = true →
       (handleResultState p st success now).1.State = .down)) :=
  ⟨downNotified_inv_fresh, fun p st success now h => downNotified_inv_step p st success now h⟩

theorem C9_down_notified_invariant_witness :
    (handleResultState ⟨1, 0, false⟩ freshServiceState false 0).1.State = .down :=
  C9_down_notified_invariant.2 ⟨1, 0, false⟩ freshServiceState false 0
    (by decide) (by decide)

/-- C10.  When route resolution fails for a service ID (no matching route or
an empty merged channel list), `HandleResult` returns without dispatching
anything and without touching the engine: the state map — indeed the whole
engine value — is unchanged, and no payload is staged. -/
theorem C10_invalid_route_frame (e : Engine) (svcID : String) (success : Bool)
    (now : GoTime) (h : (resolveRoute e svcID).ok = false) :
    (HandleResult e svcID success now).1 = e ∧
    (HandleResult e svcID success now).2 = noSend := by
  unfold HandleResult
  simp [h]

theorem C10_invalid_route_frame_witness :
    (HandleResult ⟨[], fun _ => [], [("a", freshServiceState)]⟩ "b" false 0).1 =
      (⟨[], fun _ => [], [("a", freshServiceState)]⟩ : Engine) ∧
    (HandleResult ⟨[], fun _ => [], [("a", freshServiceState)]⟩ "b" false 0).2 = noSend :=
  C10_invalid_route_frame ⟨[], fun _ => [], [("a", freshServiceState)]⟩ "b" false 0 rfl

end Sitelert

namespace Sitelert

/-! ## Claim theorems: probe executors and policy compilation -/

/-- A string with a non-empty prefix is non-empty. -/
theorem str_append_ne_empty (p q : String) (h : p ≠ "") : p ++ q ≠ "" := by
  intro hc
  apply h
  have hd := congrArg String.data hc
  simp [String.data_append] at hd
  exact String.ext hd.1

/-- C7.  `compilePolicy` keeps a positive raw `FailureThreshold` and defaults
it to 1 when zero; `Cooldown` becomes the parsed duration when the raw string
parses to a positive duration, and 0 when the string is empty, unparseable,
or parses non-positive; `RecoveryAlert` carries through unchanged.  The
hypothesis states the one property of Go's `time.ParseDuration` used: a
string that trims to empty does not parse. -/
theorem C7_compile_policy (pd : String → Option Duration) (p : RoutePolicy)
    (hws : ∀ s, goTrimSpace s = "" → pd s = none) :
    ((p.FailureThreshold > 0 →
        (compilePolicy pd p).failureThreshold = p.FailureThreshold) ∧
     (p.FailureThreshold = 0 → (compilePolicy pd p).failureThreshold = 1)) ∧
    ((∀ d, pd p.Cooldown = some d → d > 0 → (compilePolicy pd p).cooldown = d) ∧
     (p.Cooldown = "" → (compilePolicy pd p).cooldown = 0) ∧
     (pd p.Cooldown = none → (compilePolicy pd p).cooldown = 0) ∧
     (∀ d, pd p.Cooldown = some d → d ≤ 0 → (compilePolicy pd p).cooldown = 0)) ∧
    (compilePolicy pd p).recoveryAlert = p.RecoveryAlert := by
  have hth : (compilePolicy pd p).failureThreshold =
      if p.FailureThreshold > 0 then p.FailureThreshold else 1 := by
    unfold compilePolicy
    dsimp only
    (repeat' split) <;> simp
  have hrec : (compilePolicy pd p).recoveryAlert = p.RecoveryAlert := by
    unfold compilePolicy
    dsimp only
    (repeat' split) <;> simp
  have hcd : (compilePolicy pd p).cooldown =
      if goTrimSpace p.Cooldown = "" then 0
      else
        match pd p.Cooldown with
        | some d => if d > 0 then d else 0
        | none => 0 := by
    unfold compilePolicy
    dsimp only
    (repeat' split) <;> simp_all
  refine ⟨⟨fun h => ?_, fun h => ?_⟩,
    ⟨fun d hd hdp => ?_, fun h => ?_, fun h => ?_, fun d hd hdn => ?_⟩, hrec⟩
  · rw [hth]; simp [h]
  · rw [hth]; simp [h]
  · rw [hcd]
    have hne : ¬(goTrimSpace p.Cooldown = "") := fun hc => by
      rw [hws _ hc] at hd; cases hd
    rw [if_neg hne, hd]
    simp [hdp]
  · rw [hcd, h]
    rw [if_pos (show goTrimSpace "" = "" from rfl)]
  · rw [hcd]
    split
    · rfl
    · rw [h]
  · rw [hcd]
    split
    · rfl
    · rw [hd]
      dsimp only
      rw [if_neg (not_lt.mpr hdn)]

theorem C7_compile_policy_witness :
    (compilePolicy (fun s => if s = "5s" then some 5 else none)
      ⟨0, "5s", true⟩).cooldown = 5 ∧
    (compilePolicy (fun s => if s = "5s" then some 5 else none)
      ⟨0, "5s", true⟩).failureThreshold = 1 ∧
    (compilePolicy (fun s => if s = "5s" then some 5 else none)
      ⟨0, "5s", true⟩).recoveryAlert = true := by
  have hws : ∀ s, goTrimSpace s = "" → (if s = "5s" then some (5 : Duration) else none) = none := by
    intro s hs
    by_cases h5 : s = "5s"
    · subst h5; exact absurd hs (by decide)
    · simp [h5]
  have h := C7_compile_policy (fun s => if s = "5s" then some 5 else none) ⟨0, "5s", true⟩ hws
  exact ⟨h.2.1.1 5 (by decide) (by decide), h.1.2 (by decide), h.2.2⟩

/-- C8.  Both probe executors return `Result`s satisfying the invariant
`Success ⇒ Error = ""` and `¬Success ⇒ Error ≠ ""`.  The hypotheses state
the one property of Go network errors used: `err.Error()` of a failed
round-trip / dial is a non-empty string. -/
theorem C8_result_invariant (svc : Service) (ho : HTTPOutcome) (tout : TCPOutcome)
    (hmsg : ∀ m, ho = HTTPOutcome.transportErr m → m ≠ "")
    (hdial : ∀ m, tout = TCPOutcome.dialErr m → m ≠ "") :
    (((HTTPCheck svc ho).Success = true → (HTTPCheck svc ho).Error = "") ∧
     ((HTTPCheck svc ho).Success = false → (HTTPCheck svc ho).Error ≠ "")) ∧
    (((TCPCheck tout).Success = true → (TCPCheck tout).Error = "") ∧
     ((TCPCheck tout).Success = false → (TCPCheck tout).Error ≠ "")) := by
  constructor
  · cases ho with
    | buildErr m =>
      refine ⟨fun h => ?_, fun _ => ?_⟩
      · simp [HTTPCheck] at h
      · exact str_append_ne_empty "build request: " m (by decide)
    | transportErr m =>
      refine ⟨fun h => ?_, fun _ => ?_⟩
      · simp [HTTPCheck] at h
      · exact hmsg m rfl
    | response code body readErr =>
      simp only [HTTPCheck, containsCheck]
      (repeat' split) <;>
        refine ⟨fun h => ?_, fun h2 => ?_⟩ <;>
        simp_all <;>
        first
        | exact str_append_ne_empty "unexpected status " (toString code) (by decide)
        | exact str_append_ne_empty "read body: " _ (by decide)
  · cases tout with
    | dialErr m =>
      refine ⟨fun h => ?_, fun _ => ?_⟩
      · simp [TCPCheck] at h
      · exact hdial m rfl
    | connected => exact ⟨fun _ => rfl, fun h => by simp [TCPCheck] at h⟩

theorem C8_result_invariant_witness :
    (HTTPCheck ⟨"s", [200], "ok"⟩
      (HTTPOutcome.response 200 ("body ok body").data none)).Error = "" ∧
    (TCPCheck (TCPOutcome.dialErr "connection refused")).Error ≠ "" :=
  ⟨(C8_result_invariant ⟨"s", [200], "ok"⟩
      (HTTPOutcome.response 200 ("body ok body").data none)
      (TCPOutcome.dialErr "connection refused")
      (fun m hm => by simp at hm)
      (fun m hm => by
        simp at hm
        rw [hm.symm] at *
        decide)).1.1 (by decide),
   (C8_result_invariant ⟨"s", [200], "ok"⟩
      (HTTPOutcome.response 200 ("body ok body").data none)
      (TCPOutcome.dialErr "connection refused")
      (fun m hm => by simp at hm)
      (fun m hm => by
        simp at hm
        rw [hm.symm] at *
        decide)).2.2 (by decide)⟩

/-- C6 (amended).  For an HTTP probe that receives a response: with a
non-empty `ExpectedStatus` list, success requires the code to be a member;
with an empty list, success requires `200 ≤ code < 400`; and when `Contains`
is non-empty **after trimming whitespace** (`strings.TrimSpace`, the test the
code performs), success additionally requires the substring to occur in the
first 1 MiB of the body, a body-read error forcing failure.  (The unamended
claim reads "Contains is a non-empty string"; a whitespace-only `Contains`
is non-empty yet skipped — see the counterexample.) -/
theorem C6_http_response_success (svc : Service) (code : Int) (body : List Char)
    (readErr : Option String) :
    (svc.ExpectedStatus ≠ [] →
      (HTTPCheck svc (.response code body readErr)).Success = true →
      code ∈ svc.ExpectedStatus) ∧
    (svc.ExpectedStatus = [] →
      (HTTPCheck svc (.response code body readErr)).Success = true →
      200 ≤ code ∧ code < 400) ∧
    (goTrimSpace svc.Contains ≠ "" →
      (HTTPCheck svc (.response code body readErr)).Success = true →
      readErr = none ∧ List.IsInfix svc.Contains.data (body.take maxBody)) ∧
    (goTrimSpace svc.Contains ≠ "" → readErr ≠ none →
      (HTTPCheck svc (.response code body readErr)).Success = false) := by
  refine ⟨fun hne hs => ?_, fun hemp hs => ?_, fun hc hs => ?_, fun hc hr => ?_⟩
  · simp only [HTTPCheck, containsCheck] at hs
    (repeat' split at hs) <;> simp_all [List.elem_iff]
  · simp only [HTTPCheck, containsCheck] at hs
    (repeat' split at hs) <;> simp_all
  · simp only [HTTPCheck, containsCheck] at hs
    (repeat' split at hs) <;> simp_all
  · simp only [HTTPCheck, containsCheck]
    (repeat' split) <;> simp_all

theorem C6_http_response_success_witness :
    ((200 : Int) ∈ [(200 : Int)]) ∧
    List.IsInfix ("ok").data ((("body ok!").data : List Char).take maxBody) :=
  ⟨(C6_http_response_success ⟨"s", [200], "ok"⟩ 200 ("body ok!").data none).1
      (by decide) (by decide),
   ((C6_http_response_success ⟨"s", [200], "ok"⟩ 200 ("body ok!").data none).2.2.1
      (by decide) (by decide)).2⟩

/-- C6 counterexample.  With `Contains = " "` (non-empty), empty
`ExpectedStatus`, status 200 and body `"abc"` (which does not contain a
space), the probe succeeds: the code skips the substring requirement because
`strings.TrimSpace(Contains)` is empty, contradicting the claim that a
non-empty `Contains` makes success require the substring to appear. -/
theorem C6_counterexample :
    (" " : String) ≠ "" ∧
    (HTTPCheck ⟨"s", [], " "⟩ (.response 200 ("abc").data none)).Success = true ∧
    ¬ List.IsInfix (" ").data ((("abc").data : List Char).take maxBody) := by
  refine ⟨by decide, by decide, by decide⟩

end Sitelert

namespace Sitelert

/-! ## Helper lemmas for route resolution (C5) -/

theorem mem_unionFold (l : List String) (n : List String) (ch : String) :
    ch ∈ l.foldl unionStep n ↔ ch ∈ n ∨ ch ∈ l := by
  induction l generalizing n with
  | nil => simp
  | cons a l ih =>
    simp only [List.foldl_cons, ih, unionStep]
    split
    · rename_i hmem
      rw [List.elem_iff] at hmem
      constructor
      · rintro (h | h)
        · exact Or.inl h
        · exact Or.inr (List.mem_cons_of_mem a h)
      · rintro (h | h)
        · exact Or.inl h
        · rcases List.mem_cons.mp h with h | h
          · exact Or.inl (h ▸ hmem)
          · exact Or.inr h
    · simp [List.mem_append, List.mem_cons]
      tauto

theorem unionFold_noop (l n : List String) (h : ∀ ch ∈ l, ch ∈ n) :
    l.foldl unionStep n = n := by
  induction l with
  | nil => rfl
  | cons a l ih =>
    have ha : n.contains a = true := List.elem_iff.mpr (h a (List.mem_cons_self a l))
    simp only [List.foldl_cons, unionStep, ha, if_pos]
    exact ih (fun ch hch => h ch (List.mem_cons_of_mem a hch))

theorem unionFold_idem (l n : List String) :
    l.foldl unionStep (l.foldl unionStep n) = l.foldl unionStep n :=
  unionFold_noop l _ (fun ch hch => (mem_unionFold l n ch).mpr (Or.inr hch))

theorem compiledPolicy_ext (a b : compiledPolicy)
    (h1 : a.failureThreshold = b.failureThreshold) (h2 : a.cooldown = b.cooldown)
    (h3 : a.recoveryAlert = b.recoveryAlert) : a = b := by
  cases a; cases b; simp_all

theorem mergePolicy_th (a b : compiledPolicy) :
    (mergePolicy a b).failureThreshold = max a.failureThreshold b.failureThreshold := by
  unfold mergePolicy
  dsimp only
  simp only [apply_ite compiledPolicy.failureThreshold, apply_ite compiledPolicy.cooldown,
    apply_ite compiledPolicy.recoveryAlert, ite_self]
  split_ifs with h
  · exact (max_eq_right h.le).symm
  · exact (max_eq_left (not_lt.mp h)).symm

theorem mergePolicy_cd (a b : compiledPolicy) :
    (mergePolicy a b).cooldown = max a.cooldown b.cooldown := by
  unfold mergePolicy
  dsimp only
  simp only [apply_ite compiledPolicy.failureThreshold, apply_ite compiledPolicy.cooldown,
    apply_ite compiledPolicy.recoveryAlert, ite_self]
  split_ifs with h
  · exact (max_eq_right h.le).symm
  · exact (max_eq_left (not_lt.mp h)).symm

theorem mergePolicy_rec (a b : compiledPolicy) :
    (mergePolicy a b).recoveryAlert = (a.recoveryAlert || b.recoveryAlert) := by
  unfold mergePolicy
  dsimp only
  simp only [apply_ite compiledPolicy.failureThreshold, apply_ite compiledPolicy.cooldown,
    apply_ite compiledPolicy.recoveryAlert, ite_self]
  split_ifs with h <;> simp [h]

theorem mergePolicy_assoc_self (a b : compiledPolicy) :
    mergePolicy (mergePolicy a b) b = mergePolicy a b :=
  compiledPolicy_ext _ _
    (by rw [mergePolicy_th, mergePolicy_th, max_assoc, max_self])
    (by rw [mergePolicy_cd, mergePolicy_cd, max_assoc, max_self])
    (by rw [mergePolicy_rec, mergePolicy_rec, Bool.or_assoc, Bool.or_self])

theorem mergePolicy_self (a : compiledPolicy) : mergePolicy a a = a :=
  compiledPolicy_ext _ _
    (by rw [mergePolicy_th, max_self])
    (by rw [mergePolicy_cd, max_self])
    (by rw [mergePolicy_rec, Bool.or_self])

theorem routeFoldStep_true (n : List String) (pol : compiledPolicy) (r : compiledRoute) :
    routeFoldStep (n, pol, true) r = (r.notify.foldl unionStep n, r.policy, false) := rfl

theorem routeFoldStep_false (n : List String) (pol : compiledPolicy) (r : compiledRoute) :
    routeFoldStep (n, pol, false) r =
      (r.notify.foldl unionStep n, mergePolicy pol r.policy, false) := rfl

theorem routeFoldStep_idem (acc : List String × compiledPolicy × Bool)
    (r : compiledRoute) :
    routeFoldStep (routeFoldStep acc r) r = routeFoldStep acc r := by
  obtain ⟨n, pol, fl⟩ := acc
  cases fl
  · rw [routeFoldStep_false, routeFoldStep_false, unionFold_idem, mergePolicy_assoc_self]
  · rw [routeFoldStep_true, routeFoldStep_false, unionFold_idem, mergePolicy_self]

theorem foldl_replicate_collapse (c : Nat) (acc : List String × compiledPolicy × Bool)
    (r : compiledRoute) :
    (List.replicate c r).foldl routeFoldStep (routeFoldStep acc r) = routeFoldStep acc r := by
  induction c generalizing acc with
  | zero => rfl
  | succ c ih =>
    rw [List.replicate_succ, List.foldl_cons, routeFoldStep_idem]
    exact ih acc

theorem foldl_flatten_collapse (routes : List compiledRoute) (id : String)
    (acc : List String × compiledPolicy × Bool) :
    ((routes.map (fun r => List.replicate (r.matchServiceIDs.count id) r)).flatten).foldl
        routeFoldStep acc
      = (matchingRoutes routes id).foldl routeFoldStep acc := by
  induction routes generalizing acc with
  | nil => rfl
  | cons r rest ih =>
    rw [List.map_cons, List.flatten_cons, List.foldl_append]
    by_cases hmem : id ∈ r.matchServiceIDs
    · have hc : r.matchServiceIDs.count id ≠ 0 := by
        rw [Ne, List.count_eq_zero]
        exact fun h => h hmem
      obtain ⟨c, hc2⟩ := Nat.exists_eq_succ_of_ne_zero hc
      rw [hc2, List.replicate_succ, List.foldl_cons, foldl_replicate_collapse]
      have hfil : matchingRoutes (r :: rest) id = r :: matchingRoutes rest id := by
        simp only [matchingRoutes, List.filter_cons]
        rw [if_pos (List.elem_iff.mpr hmem)]
      rw [hfil, List.foldl_cons]
      exact ih _
    · have hc : r.matchServiceIDs.count id = 0 := List.count_eq_zero.mpr hmem
      rw [hc, List.replicate_zero, List.foldl_nil]
      have hfil : matchingRoutes (r :: rest) id = matchingRoutes rest id := by
        simp only [matchingRoutes, List.filter_cons]
        rw [if_neg]
        simp [List.elem_iff, hmem]
      rw [hfil]
      exact ih _

theorem insStep_apply (i : Nat) (m : String → List Nat) (id q : String) :
    insStep i m id q = if id ≠ "" ∧ q = id then m q ++ [i] else m q := by
  by_cases hid : id = ""
  · simp [insStep, hid]
  · by_cases hq : q = id
    · simp [insStep, hid, hq]
    · simp [insStep, hid, hq]

theorem insFold_apply (ids : List String) (m : String → List Nat) (i : Nat)
    (q : String) :
    (ids.foldl (insStep i) m) q
      = m q ++ (if q = "" then [] else List.replicate (ids.count q) i) := by
  induction ids generalizing m with
  | nil => simp
  | cons a ids ih =>
    rw [List.foldl_cons, ih, insStep_apply]
    by_cases hq : q = ""
    · subst hq
      have hno : ¬(a ≠ "" ∧ ("" : String) = a) := by
        rintro ⟨h1, h2⟩
        exact h1 h2.symm
      rw [if_neg hno]
      simp
    · simp only [if_neg hq]
      by_cases hqa : q = a
      · subst hqa
        rw [if_pos ⟨hq, rfl⟩, List.count_cons, if_pos (by simp), List.append_assoc]
        simp [List.replicate_succ]
      · have hno : ¬(a ≠ "" ∧ q = a) := fun h => hqa h.2
        rw [if_neg hno, List.count_cons, if_neg (by simpa using Ne.symm hqa),
          Nat.add_zero]

theorem indexInsert_apply (m : String → List Nat) (i : Nat) (r : compiledRoute)
    (q : String) :
    indexInsert m i r q
      = m q ++ (if q = "" then [] else List.replicate (r.matchServiceIDs.count q) i) :=
  insFold_apply r.matchServiceIDs m i q

theorem buildFold_apply (ps : List (Nat × compiledRoute)) (m : String → List Nat)
    (q : String) :
    (ps.foldl (fun m p => indexInsert m p.1 p.2) m) q
      = m q ++ ((ps.map (fun p =>
          if q = "" then [] else
            List.replicate (p.2.matchServiceIDs.count q) p.1)).flatten) := by
  induction ps generalizing m with
  | nil => simp
  | cons p ps ih =>
    rw [List.foldl_cons, ih, List.map_cons, List.flatten_cons, indexInsert_apply,
      List.append_assoc]

theorem buildIndex_apply (routes : List compiledRoute) (q : String) :
    buildIndex routes q
      = ((routes.enum.map (fun p =>
          if q = "" then [] else
            List.replicate (p.2.matchServiceIDs.count q) p.1)).flatten) := by
  unfold buildIndex
  rw [buildFold_apply]
  rfl

theorem enum_getD (routes : List compiledRoute) (p : Nat × compiledRoute)
    (h : p ∈ routes.enum) : routes.getD p.1 zeroRoute = p.2 := by
  obtain ⟨i, r⟩ := p
  have h2 := List.mem_enum h
  rw [List.getD_eq_getElem?_getD, List.getElem?_eq_getElem h2.1]
  simp [h2.2]

theorem idxs_map_getD (routes : List compiledRoute) (q : String) (hq : q ≠ "") :
    (buildIndex routes q).map (fun i => routes.getD i zeroRoute)
      = (routes.map (fun r => List.replicate (r.matchServiceIDs.count q) r)).flatten := by
  rw [buildIndex_apply, List.map_flatten, List.map_map]
  have hrhs : routes.map (fun r => List.replicate (r.matchServiceIDs.count q) r)
      = routes.enum.map
          ((fun r => List.replicate (r.matchServiceIDs.count q) r) ∘ Prod.snd) := by
    rw [← List.map_map, List.enum_map_snd]
  rw [hrhs]
  congr 1
  apply List.map_congr_left
  intro p hp
  simp only [Function.comp, if_neg hq, List.map_replicate]
  rw [enum_getD routes p hp]

theorem resolveFold_eq (routes : List compiledRoute) (q : String) (hq : q ≠ "")
    (acc0 : List String × compiledPolicy × Bool) :
    (buildIndex routes q).foldl (resolveStep routes) acc0
      = (matchingRoutes routes q).foldl routeFoldStep acc0 := by
  have h1 : (buildIndex routes q).foldl (resolveStep routes) acc0
      = ((buildIndex routes q).map (fun i => routes.getD i zeroRoute)).foldl
          routeFoldStep acc0 := by
    rw [List.foldl_map]
    rfl
  rw [h1, idxs_map_getD routes q hq, foldl_flatten_collapse]

theorem buildIndex_nil_iff (routes : List compiledRoute) (q : String) (hq : q ≠ "") :
    (buildIndex routes q = []) ↔ matchingRoutes routes q = [] := by
  rw [← List.map_eq_nil_iff (f := fun i => routes.getD i zeroRoute)]
  rw [idxs_map_getD routes q hq, List.flatten_eq_nil_iff]
  unfold matchingRoutes
  rw [List.filter_eq_nil_iff]
  constructor
  · intro h r hr hcon
    have h2 := h (List.replicate (r.matchServiceIDs.count q) r)
      (List.mem_map_of_mem _ hr)
    rw [List.replicate_eq_nil_iff] at h2
    rw [List.count_eq_zero] at h2
    exact h2 (List.elem_iff.mp hcon)
  · intro h l hl
    obtain ⟨r, hr, rfl⟩ := List.mem_map.mp hl
    rw [List.replicate_eq_nil_iff, List.count_eq_zero]
    intro hmem
    exact h r hr (List.elem_iff.mpr hmem)

theorem fold_notify (ms : List compiledRoute) (n : List String) (pol : compiledPolicy)
    (fl : Bool) :
    (ms.foldl routeFoldStep (n, pol, fl)).1
      = ((ms.map (fun r => r.notify)).flatten).foldl unionStep n := by
  induction ms generalizing n pol fl with
  | nil => rfl
  | cons r ms ih =>
    rw [List.foldl_cons, List.map_cons, List.flatten_cons, List.foldl_append]
    cases fl
    · rw [routeFoldStep_false]
      exact ih _ _ _
    · rw [routeFoldStep_true]
      exact ih _ _ _

theorem fold_th (ms : List compiledRoute) (n : List String) (pol : compiledPolicy) :
    (ms.foldl routeFoldStep (n, pol, false)).2.1.failureThreshold
      = ms.foldl (fun a r => max a r.policy.failureThreshold) pol.failureThreshold := by
  induction ms generalizing n pol with
  | nil => rfl
  | cons r ms ih =>
    rw [List.foldl_cons, routeFoldStep_false, List.foldl_cons, ih, mergePolicy_th]

theorem fold_cd (ms : List compiledRoute) (n : List String) (pol : compiledPolicy) :
    (ms.foldl routeFoldStep (n, pol, false)).2.1.cooldown
      = ms.foldl (fun a r => max a r.policy.cooldown) pol.cooldown := by
  induction ms generalizing n pol with
  | nil => rfl
  | cons r ms ih =>
    rw [List.foldl_cons, routeFoldStep_false, List.foldl_cons, ih, mergePolicy_cd]

theorem fold_rec (ms : List compiledRoute) (n : List String) (pol : compiledPolicy) :
    (ms.foldl routeFoldStep (n, pol, false)).2.1.recoveryAlert
      = (pol.recoveryAlert || ms.any (fun r => r.policy.recoveryAlert)) := by
  induction ms generalizing n pol with
  | nil => simp
  | cons r ms ih =>
    rw [List.foldl_cons, routeFoldStep_false, ih, mergePolicy_rec, List.any_cons,
      Bool.or_assoc]

theorem buildIndex_empty_str (routes : List compiledRoute) :
    buildIndex routes "" = [] := by
  rw [buildIndex_apply]
  simp

end Sitelert

namespace Sitelert

/-- `trimAll` never produces an empty string. -/
theorem trimAll_no_empty (l : List String) : ("" : String) ∉ trimAll l := by
  intro h
  simp [trimAll, List.mem_filter] at h

/-- Compiled routes of `NewEngine` have no empty IDs in their match lists. -/
theorem NewEngine_no_empty (pd : String → Option Duration) (rs : List Route) :
    ∀ r ∈ (NewEngine pd rs).routes, ("" : String) ∉ r.matchServiceIDs := by
  intro r hr
  simp only [NewEngine, List.mem_map] at hr
  obtain ⟨raw, _, rfl⟩ := hr
  exact trimAll_no_empty raw.Match.ServiceIDs

/-- The full characterisation of `Engine.resolveRoute` for an engine whose
index was built by `NewEngine`'s loop over its own route list. -/
theorem resolveRoute_spec (e : Engine) (hidx : e.routeIndex = buildIndex e.routes)
    (hnoempty : ∀ r ∈ e.routes, ("" : String) ∉ r.matchServiceIDs) (q : String) :
    ((resolveRoute e q).ok = true ↔
      matchingRoutes e.routes q ≠ [] ∧
      dedupFirstSeen (((matchingRoutes e.routes q).map (fun r => r.notify)).flatten) ≠ []) ∧
    ((resolveRoute e q).ok = true →
      (resolveRoute e q).notify
        = dedupFirstSeen (((matchingRoutes e.routes q).map (fun r => r.notify)).flatten) ∧
      ((matchingRoutes e.routes q).map (fun r => r.policy.failureThreshold)).max?
        = some (resolveRoute e q).policy.failureThreshold ∧
      ((matchingRoutes e.routes q).map (fun r => r.policy.cooldown)).max?
        = some (resolveRoute e q).policy.cooldown ∧
      (resolveRoute e q).policy.recoveryAlert
        = (matchingRoutes e.routes q).any (fun r => r.policy.recoveryAlert)) := by
  obtain ⟨routes, rIdx, st⟩ := e
  dsimp only at hidx hnoempty ⊢
  subst hidx
  by_cases hq : q = ""
  · subst hq
    have hbi := buildIndex_empty_str routes
    have hms : matchingRoutes routes "" = [] := by
      unfold matchingRoutes
      rw [List.filter_eq_nil_iff]
      intro r hr hc
      exact hnoempty r hr (List.elem_iff.mp hc)
    unfold resolveRoute
    simp [hbi, hms]
  · by_cases hbi : buildIndex routes q = []
    · have hms := (buildIndex_nil_iff routes q hq).mp hbi
      unfold resolveRoute
      simp [hbi, hms]
    · have hms : matchingRoutes routes q ≠ [] := fun h =>
        hbi ((buildIndex_nil_iff routes q hq).mpr h)
      obtain ⟨m, rest, hcons⟩ := List.exists_cons_of_ne_nil hms
      have hacc : (buildIndex routes q).foldl (resolveStep routes)
            ([], ⟨1, 0, false⟩, true)
          = (matchingRoutes routes q).foldl routeFoldStep ([], ⟨1, 0, false⟩, true) :=
        resolveFold_eq routes q hq _
      have hn : ((matchingRoutes routes q).foldl routeFoldStep
            ([], ⟨1, 0, false⟩, true)).1
          = dedupFirstSeen (((matchingRoutes routes q).map (fun r => r.notify)).flatten) := by
        rw [hcons, List.foldl_cons, routeFoldStep_true, fold_notify, List.map_cons,
          List.flatten_cons]
        unfold dedupFirstSeen
        rw [List.foldl_append]
      have hth : ((matchingRoutes routes q).map (fun r => r.policy.failureThreshold)).max?
          = some (((matchingRoutes routes q).foldl routeFoldStep
              ([], ⟨1, 0, false⟩, true)).2.1.failureThreshold) := by
        rw [hcons, List.foldl_cons, routeFoldStep_true, fold_th, List.map_cons]
        show some (List.foldl max m.policy.failureThreshold
          (rest.map (fun r => r.policy.failureThreshold))) = _
        rw [List.foldl_map]
      have hcd : ((matchingRoutes routes q).map (fun r => r.policy.cooldown)).max?
          = some (((matchingRoutes routes q).foldl routeFoldStep
              ([], ⟨1, 0, false⟩, true)).2.1.cooldown) := by
        rw [hcons, List.foldl_cons, routeFoldStep_true, fold_cd, List.map_cons]
        show some (List.foldl max m.policy.cooldown
          (rest.map (fun r => r.policy.cooldown))) = _
        rw [List.foldl_map]
      have hrc : (((matchingRoutes routes q).foldl routeFoldStep
            ([], ⟨1, 0, false⟩, true)).2.1.recoveryAlert)
          = (matchingRoutes routes q).any (fun r => r.policy.recoveryAlert) := by
        rw [hcons, List.foldl_cons, routeFoldStep_true, fold_rec, List.any_cons]
      have hempty : (buildIndex routes q).isEmpty = false := by
        rw [List.isEmpty_eq_false]
        exact hbi
      unfold resolveRoute
      dsimp only
      rw [hempty]
      simp only [Bool.false_eq_true, if_false]
      rw [hacc]
      by_cases hde : (((matchingRoutes routes q).foldl routeFoldStep
          ([], ⟨1, 0, false⟩, true)).1).isEmpty = true
      · rw [if_pos hde]
        rw [List.isEmpty_iff] at hde
        rw [hn] at hde
        constructor
        · simp [hde]
        · intro h
          simp at h
      · rw [if_neg hde]
        rw [List.isEmpty_iff, hn] at hde
        constructor
        · simp only [true_iff]
          exact ⟨hms, hde⟩
        · intro _
          exact ⟨hn, hth, hcd, hrc⟩

/-- C5.  For every raw route list (and every duration parser), route
resolution on the engine built by `NewEngine` satisfies: `ok = true` iff at
least one compiled route matches the service ID and the merged channel list
is non-empty; when it resolves, the channel list is the union of the matching
routes' notify lists deduplicated preserving first-seen order, the resolved
`FailureThreshold` and `Cooldown` are the maxima over the matching routes,
and `RecoveryAlert` holds iff some matching route enables it. -/
theorem C5_resolve_route (pd : String → Option Duration) (rs : List Route)
    (q : String) :
    ((resolveRoute (NewEngine pd rs) q).ok = true ↔
      matchingRoutes (NewEngine pd rs).routes q ≠ [] ∧
      dedupFirstSeen
        (((matchingRoutes (NewEngine pd rs).routes q).map (fun r => r.notify)).flatten)
        ≠ []) ∧
    ((resolveRoute (NewEngine pd rs) q).ok = true →
      (resolveRoute (NewEngine pd rs) q).notify
        = dedupFirstSeen
            (((matchingRoutes (NewEngine pd rs).routes q).map
              (fun r => r.notify)).flatten) ∧
      ((matchingRoutes (NewEngine pd rs).routes q).map
          (fun r => r.policy.failureThreshold)).max?
        = some (resolveRoute (NewEngine pd rs) q).policy.failureThreshold ∧
      ((matchingRoutes (NewEngine pd rs).routes q).map
          (fun r => r.policy.cooldown)).max?
        = some (resolveRoute (NewEngine pd rs) q).policy.cooldown ∧
      (resolveRoute (NewEngine pd rs) q).policy.recoveryAlert
        = (matchingRoutes (NewEngine pd rs).routes q).any
            (fun r => r.policy.recoveryAlert)) :=
  resolveRoute_spec (NewEngine pd rs) rfl (NewEngine_no_empty pd rs) q

end Sitelert

namespace Sitelert

theorem C5_resolve_route_witness :
    (resolveRoute (NewEngine (fun _ => none)
      [⟨⟨["svc"]⟩, ["discord", "slack"], ⟨3, "", false⟩⟩,
       ⟨⟨["svc", "other"]⟩, ["slack", "email"], ⟨1, "", true⟩⟩]) "svc").ok = true ∧
    (resolveRoute (NewEngine (fun _ => none)
      [⟨⟨["svc"]⟩, ["discord", "slack"], ⟨3, "", false⟩⟩,
       ⟨⟨["svc", "other"]⟩, ["slack", "email"], ⟨1, "", true⟩⟩]) "svc").notify
      = ["discord", "slack", "email"] ∧
    (resolveRoute (NewEngine (fun _ => none)
      [⟨⟨["svc"]⟩, ["discord", "slack"], ⟨3, "", false⟩⟩,
       ⟨⟨["svc", "other"]⟩, ["slack", "email"], ⟨1, "", true⟩⟩]) "svc").policy.failureThreshold
      = 3 ∧
    (resolveRoute (NewEngine (fun _ => none)
      [⟨⟨["svc"]⟩, ["discord", "slack"], ⟨3, "", false⟩⟩,
       ⟨⟨["svc", "other"]⟩, ["slack", "email"], ⟨1, "", true⟩⟩]) "svc").policy.recoveryAlert
      = true := by
  have h := C5_resolve_route (fun _ => none)
    [⟨⟨["svc"]⟩, ["discord", "slack"], ⟨3, "", false⟩⟩,
     ⟨⟨["svc", "other"]⟩, ["slack", "email"], ⟨1, "", true⟩⟩] "svc"
  have hok : (resolveRoute (NewEngine (fun _ => none)
      [⟨⟨["svc"]⟩, ["discord", "slack"], ⟨3, "", false⟩⟩,
       ⟨⟨["svc", "other"]⟩, ["slack", "email"], ⟨1, "", true⟩⟩]) "svc").ok = true := by
    decide
  refine ⟨hok, ?_, ?_, ?_⟩
  · rw [(h.2 hok).1]
    decide
  · have h2 := (h.2 hok).2.1
    have h3 : ((matchingRoutes (NewEngine (fun _ => none)
        [⟨⟨["svc"]⟩, ["discord", "slack"], ⟨3, "", false⟩⟩,
         ⟨⟨["svc", "other"]⟩, ["slack", "email"], ⟨1, "", true⟩⟩]).routes "svc").map
          (fun r => r.policy.failureThreshold)).max? = some 3 := by decide
    rw [h3] at h2
    exact (Option.some.inj h2).symm
  · rw [(h.2 hok).2.2.2]
    decide

end Sitelert

namespace Sitelert

/-! ## Helper lemmas for the email builder (C4) -/

theorem crlfStrict_cons (c : Char) (l : List Char) (h1 : c ≠ '\r') (h2 : c ≠ '\n') :
    crlfStrict (c :: l) = crlfStrict l := by
  cases l with
  | nil => simp [crlfStrict, h1, h2]
  | cons c2 rest => rw [crlfStrict, if_neg h1, if_neg h2]

theorem replaceChar_not_mem (a b : Char) (l : List Char) (hab : a ≠ b) :
    a ∉ replaceChar a b l := by
  intro h
  simp only [replaceChar, List.mem_map] at h
  obtain ⟨c, _, hc⟩ := h
  by_cases hca : c = a
  · rw [if_pos hca] at hc
    exact hab hc.symm
  · rw [if_neg hca] at hc
    exact hca hc

theorem crlfStrict_expand (l : List Char) (h : '\r' ∉ l) :
    crlfStrict (expandLFtoCRLF l) = true := by
  induction l with
  | nil => rfl
  | cons c l ih =>
    have hr : c ≠ '\r' := fun hc => h (hc ▸ List.mem_cons_self c l)
    have hl : '\r' ∉ l := fun hc => h (List.mem_cons_of_mem c hc)
    by_cases hn : c = '\n'
    · subst hn
      show crlfStrict ('\r' :: '\n' :: expandLFtoCRLF l) = true
      rw [crlfStrict, if_pos rfl]
      simp [ih hl]
    · show crlfStrict ((if c = '\n' then ['\r', '\n'] else [c]) ++ expandLFtoCRLF l) = true
      rw [if_neg hn, List.singleton_append, crlfStrict_cons c _ hr hn]
      exact ih hl

theorem crlfStrict_append (a b : List Char) (hb : crlfStrict b = true) :
    crlfStrict a = true → crlfStrict (a ++ b) = true := by
  induction a using crlfStrict.induct with
  | case1 =>
    intro _
    simpa using hb
  | case2 c =>
    intro ha
    rw [crlfStrict] at ha
    simp only [Bool.not_eq_true', Bool.or_eq_false_iff, beq_eq_false_iff_ne] at ha
    rw [List.singleton_append, crlfStrict_cons c b ha.1 ha.2]
    exact hb
  | case3 c2 rest ih =>
    intro ha
    rw [crlfStrict, if_pos rfl, Bool.and_eq_true] at ha
    show crlfStrict ('\r' :: c2 :: (rest ++ b)) = true
    rw [crlfStrict, if_pos rfl, Bool.and_eq_true]
    exact ⟨ha.1, ih ha.2⟩
  | case4 c2 rest h =>
    intro ha
    rw [crlfStrict, if_neg (by decide), if_pos rfl] at ha
    cases ha
  | case5 c1 c2 rest h1 h2 ih =>
    intro ha
    rw [crlfStrict, if_neg h1, if_neg h2] at ha
    show crlfStrict (c1 :: (c2 :: (rest ++ b))) = true
    rw [crlfStrict_cons c1 _ h1 h2]
    exact ih ha

theorem splitCRLF_ne_nil (l : List Char) : splitCRLF l ≠ [] := by
  rw [splitCRLF.eq_def]
  split
  · simp
  · split <;> simp
  · simp

theorem splitCRLF_line (l rest : List Char) (h : ∀ c ∈ l, c ≠ '\r' ∧ c ≠ '\n') :
    splitCRLF (l ++ '\r' :: '\n' :: rest) = l :: splitCRLF rest := by
  induction l with
  | nil =>
    show splitCRLF ('\r' :: '\n' :: rest) = [] :: splitCRLF rest
    exact splitCRLF.eq_1 rest
  | cons c l ih =>
    have hc := h c (List.mem_cons_self c l)
    have hl : ∀ c2 ∈ l, c2 ≠ '\r' ∧ c2 ≠ '\n' :=
      fun c2 hc2 => h c2 (List.mem_cons_of_mem c hc2)
    show splitCRLF (c :: (l ++ '\r' :: '\n' :: rest)) = (c :: l) :: splitCRLF rest
    rw [splitCRLF.eq_2 c _ (by
      intro r hceq _
      exact hc.1 hceq)]
    rw [ih hl]


theorem trimSpaceL_subset (l : List Char) (c : Char) (hc : c ∈ trimSpaceL l) :
    c ∈ l := by
  unfold trimSpaceL at hc
  rw [List.mem_reverse] at hc
  have hc2 := (List.dropWhile_sublist isGoSpace).subset hc
  rw [List.mem_reverse] at hc2
  exact (List.dropWhile_sublist isGoSpace).subset hc2

theorem replaceChar_mem (a b c : Char) (l : List Char) (h : c ∈ replaceChar a b l) :
    c = b ∨ (c ∈ l ∧ c ≠ a) := by
  simp only [replaceChar, List.mem_map] at h
  obtain ⟨x, hx, hfx⟩ := h
  by_cases hxa : x = a
  · rw [if_pos hxa] at hfx
    exact Or.inl hfx.symm
  · rw [if_neg hxa] at hfx
    subst hfx
    exact Or.inr ⟨hx, hxa⟩

theorem sanitizeHeader_noCRLF (s : List Char) : noCRLF (sanitizeHeader s) := by
  constructor
  · intro h
    have h1 := trimSpaceL_subset _ _ h
    rcases replaceChar_mem (Char.ofNat 10) ' ' (Char.ofNat 13) _ h1 with h2 | ⟨h2, _⟩
    · exact absurd h2 (by decide)
    · rcases replaceChar_mem (Char.ofNat 13) ' ' (Char.ofNat 13) _ h2 with h3 | ⟨_, h3⟩
      · exact absurd h3 (by decide)
      · exact h3 rfl
  · intro h
    have h1 := trimSpaceL_subset _ _ h
    rcases replaceChar_mem (Char.ofNat 10) ' ' (Char.ofNat 10) _ h1 with h2 | ⟨_, h2⟩
    · exact absurd h2 (by decide)
    · exact h2 rfl

theorem mem_intercalate (sep : List Char) (xs : List (List Char)) (c : Char) :
    c ∈ List.intercalate sep xs → c ∈ sep ∨ ∃ x ∈ xs, c ∈ x := by
  induction xs with
  | nil =>
    intro h
    rw [show List.intercalate sep [] = [] from rfl] at h
    exact absurd h (List.not_mem_nil c)
  | cons x xs ih =>
    cases xs with
    | nil =>
      intro h
      rw [show List.intercalate sep [x] = x from by
        show (List.intersperse sep [x]).flatten = x
        simp] at h
      exact Or.inr ⟨x, List.mem_cons_self x [], h⟩
    | cons y ys =>
      intro h
      rw [show List.intercalate sep (x :: y :: ys)
          = x ++ (sep ++ List.intercalate sep (y :: ys)) from by
        show (List.intersperse sep (x :: y :: ys)).flatten = _
        rw [List.intersperse_cons_cons, List.flatten_cons, List.flatten_cons]
        rfl] at h
      rw [List.mem_append, List.mem_append] at h
      rcases h with h | h | h
      · exact Or.inr ⟨x, List.mem_cons_self x _, h⟩
      · exact Or.inl h
      · rcases ih h with h2 | ⟨z, hz, hcz⟩
        · exact Or.inl h2
        · exact Or.inr ⟨z, List.mem_cons_of_mem x hz, hcz⟩

theorem noCRLF_append (a b : List Char) (ha : noCRLF a) (hb : noCRLF b) :
    noCRLF (a ++ b) := by
  unfold noCRLF at *
  simp only [List.mem_append]
  constructor
  · rintro (h | h)
    · exact ha.1 h
    · exact hb.1 h
  · rintro (h | h)
    · exact ha.2 h
    · exact hb.2 h

theorem noCRLF_forall (l : List Char) (h : noCRLF l) :
    ∀ c ∈ l, c ≠ '\r' ∧ c ≠ '\n' := by
  intro c hc
  exact ⟨fun he => h.1 (he ▸ hc), fun he => h.2 (he ▸ hc)⟩

theorem takeWhile_all_stop {α : Type} (p : α → Bool) (xs : List α) (y : α)
    (ys : List α) (hxs : ∀ x ∈ xs, p x = true) (hy : p y = false) :
    (xs ++ y :: ys).takeWhile p = xs := by
  induction xs with
  | nil => simp [List.takeWhile_cons, hy]
  | cons x xs ih =>
    rw [List.cons_append, List.takeWhile_cons, hxs x (List.mem_cons_self x xs),
      if_pos rfl, ih (fun a ha => hxs a (List.mem_cons_of_mem x ha))]

theorem splitCRLF_header_block (lines : List (List Char)) (rest : List Char)
    (h : ∀ l ∈ lines, ∀ c ∈ l, c ≠ '\r' ∧ c ≠ '\n') :
    splitCRLF ((lines.map (fun l => l ++ ['\r', '\n'])).flatten ++ rest)
      = lines ++ splitCRLF rest := by
  induction lines with
  | nil => simp
  | cons l lines ih =>
    rw [List.map_cons, List.flatten_cons, List.append_assoc, List.append_assoc]
    rw [show ['\r', '\n'] ++ ((lines.map (fun l => l ++ ['\r', '\n'])).flatten ++ rest)
        = '\r' :: '\n' :: ((lines.map (fun l => l ++ ['\r', '\n'])).flatten ++ rest)
      from rfl]
    rw [splitCRLF_line l _ (h l (List.mem_cons_self l lines))]
    rw [ih (fun l2 hl2 => h l2 (List.mem_cons_of_mem l hl2))]
    rfl

/-- C4 (amended).  `buildEmail` produces a message whose body uses CRLF line
endings throughout (every CR is followed by LF and every LF preceded by CR in
the normalised body, which is everything after the blank line), and whose
Subject header value is `sanitizeHeader subject` — all CR and LF replaced by
spaces, so the Subject cannot inject a header line.  The From, To and Date
values, however, are written verbatim (the code does not sanitize them — see
the counterexample), so the header section consists of exactly the seven
expected lines only under the hypothesis that they are CR/LF-free (true of
`time.RFC1123Z` dates and of parsed addresses in the intended use). -/
theorem C4_email_structure (d f : List Char) (toHdrs : List (List Char))
    (s b : List Char) (hd : noCRLF d) (hf : noCRLF f)
    (hto : ∀ x ∈ toHdrs, noCRLF x) :
    headerLines (buildEmail d f toHdrs s b)
      = [("From").data ++ (": ").data ++ f,
       ("To").data ++ (": ").data ++ List.intercalate (", ").data toHdrs,
       ("Subject").data ++ (": ").data ++ sanitizeHeader s,
       ("Date").data ++ (": ").data ++ d,
       ("MIME-Version").data ++ (": ").data ++ ("1.0").data,
       ("Content-Type").data ++ (": ").data ++ ("text/plain; charset=\"utf-8\"").data,
       ("Content-Transfer-Encoding").data ++ (": ").data ++ ("8bit").data] ∧
    noCRLF (sanitizeHeader s) ∧
    crlfStrict (normalizeBody b) = true ∧
    ∃ tail, buildEmail d f toHdrs s b
        = ((headerLines (buildEmail d f toHdrs s b)).map
            (fun l => l ++ ['\r', '\n'])).flatten ++ ('\r' :: '\n' :: tail) ∧
      crlfStrict tail = true := by
  have hjoin : noCRLF (List.intercalate (", ").data toHdrs) := by
    constructor
    · intro h
      rcases mem_intercalate _ _ _ h with h2 | ⟨x, hx, hcx⟩
      · exact absurd h2 (by decide)
      · exact (hto x hx).1 hcx
    · intro h
      rcases mem_intercalate _ _ _ h with h2 | ⟨x, hx, hcx⟩
      · exact absurd h2 (by decide)
      · exact (hto x hx).2 hcx
  have hsan := sanitizeHeader_noCRLF s
  have hclean : ∀ l ∈ [("From").data ++ (": ").data ++ f,
       ("To").data ++ (": ").data ++ List.intercalate (", ").data toHdrs,
       ("Subject").data ++ (": ").data ++ sanitizeHeader s,
       ("Date").data ++ (": ").data ++ d,
       ("MIME-Version").data ++ (": ").data ++ ("1.0").data,
       ("Content-Type").data ++ (": ").data ++ ("text/plain; charset=\"utf-8\"").data,
       ("Content-Transfer-Encoding").data ++ (": ").data ++ ("8bit").data], ∀ c ∈ l, c ≠ '\r' ∧ c ≠ '\n' := by
    intro l hl
    simp only [List.mem_cons, List.not_mem_nil, or_false] at hl
    rcases hl with rfl | rfl | rfl | rfl | rfl | rfl | rfl
    · exact noCRLF_forall _ (noCRLF_append _ _ (by decide) hf)
    · exact noCRLF_forall _ (noCRLF_append _ _ (by decide) hjoin)
    · exact noCRLF_forall _ (noCRLF_append _ _ (by decide) hsan)
    · exact noCRLF_forall _ (noCRLF_append _ _ (by decide) hd)
    · exact noCRLF_forall _ (by decide)
    · exact noCRLF_forall _ (by decide)
    · exact noCRLF_forall _ (by decide)
  have hnb : crlfStrict (normalizeBody b) = true := by
    unfold normalizeBody
    exact crlfStrict_expand _ (replaceChar_not_mem _ _ _ (by decide))
  have hhl : ∀ tail2 : List Char,
      headerLines (([("From").data ++ (": ").data ++ f,
       ("To").data ++ (": ").data ++ List.intercalate (", ").data toHdrs,
       ("Subject").data ++ (": ").data ++ sanitizeHeader s,
       ("Date").data ++ (": ").data ++ d,
       ("MIME-Version").data ++ (": ").data ++ ("1.0").data,
       ("Content-Type").data ++ (": ").data ++ ("text/plain; charset=\"utf-8\"").data,
       ("Content-Transfer-Encoding").data ++ (": ").data ++ ("8bit").data].map (fun l => l ++ ['\r', '\n'])).flatten
        ++ ('\r' :: '\n' :: tail2))
      = [("From").data ++ (": ").data ++ f,
       ("To").data ++ (": ").data ++ List.intercalate (", ").data toHdrs,
       ("Subject").data ++ (": ").data ++ sanitizeHeader s,
       ("Date").data ++ (": ").data ++ d,
       ("MIME-Version").data ++ (": ").data ++ ("1.0").data,
       ("Content-Type").data ++ (": ").data ++ ("text/plain; charset=\"utf-8\"").data,
       ("Content-Transfer-Encoding").data ++ (": ").data ++ ("8bit").data] := by
    intro tail2
    unfold headerLines
    rw [splitCRLF_header_block _ _ hclean, splitCRLF.eq_1]
    refine takeWhile_all_stop _ _ [] _ ?_ rfl
    intro l hl
    simp only [List.mem_cons, List.not_mem_nil, or_false] at hl
    rcases hl with rfl | rfl | rfl | rfl | rfl | rfl | rfl <;> rfl
  by_cases hsuf : List.isSuffixOf ['\r', '\n'] (normalizeBody b)
  · have hmsg : buildEmail d f toHdrs s b
        = ([("From").data ++ (": ").data ++ f,
       ("To").data ++ (": ").data ++ List.intercalate (", ").data toHdrs,
       ("Subject").data ++ (": ").data ++ sanitizeHeader s,
       ("Date").data ++ (": ").data ++ d,
       ("MIME-Version").data ++ (": ").data ++ ("1.0").data,
       ("Content-Type").data ++ (": ").data ++ ("text/plain; charset=\"utf-8\"").data,
       ("Content-Transfer-Encoding").data ++ (": ").data ++ ("8bit").data].map (fun l => l ++ ['\r', '\n'])).flatten
          ++ ('\r' :: '\n' :: normalizeBody b) := by
      simp [buildEmail, writeHeader, hsuf, List.append_assoc]
    refine ⟨?_, hsan, hnb, ⟨normalizeBody b, ?_, hnb⟩⟩
    · rw [hmsg, hhl]
    · rw [hmsg, hhl]
  · have hmsg : buildEmail d f toHdrs s b
        = ([("From").data ++ (": ").data ++ f,
       ("To").data ++ (": ").data ++ List.intercalate (", ").data toHdrs,
       ("Subject").data ++ (": ").data ++ sanitizeHeader s,
       ("Date").data ++ (": ").data ++ d,
       ("MIME-Version").data ++ (": ").data ++ ("1.0").data,
       ("Content-Type").data ++ (": ").data ++ ("text/plain; charset=\"utf-8\"").data,
       ("Content-Transfer-Encoding").data ++ (": ").data ++ ("8bit").data].map (fun l => l ++ ['\r', '\n'])).flatten
          ++ ('\r' :: '\n' :: (normalizeBody b ++ ['\r', '\n'])) := by
      simp [buildEmail, writeHeader, hsuf, List.append_assoc]
    refine ⟨?_, hsan, hnb,
      ⟨normalizeBody b ++ ['\r', '\n'], ?_,
        crlfStrict_append _ _ (by decide) hnb⟩⟩
    · rw [hmsg, hhl]
    · rw [hmsg, hhl]

end Sitelert

namespace Sitelert

/-- C4 counterexample.  The claim as stated — every header value in the
message (Subject, From, To, Date, and the fixed headers) has all CR and LF
characters replaced by spaces, so no header value can inject an additional
header line — is false: `buildEmail` applies `sanitizeHeader` only to the
Subject.  With the From value `"a@b.com\nInjected: evil"` the produced
message has a header line still containing a raw LF: the injected text goes
out verbatim inside the header section. -/
theorem C4_counterexample :
    ((headerLines (buildEmail ("Mon, 01 Jan 2024 00:00:00 +0000").data
        ("a@b.com\nInjected: evil").data [("c@d.com").data] ("Subj").data
        ("Body").data)).any (fun l => l.contains '\n')) = true := by
  decide

theorem C4_email_structure_witness :
    headerLines (buildEmail ("Mon, 01 Jan 2024 00:00:00 +0000").data
        ("a@b.com").data [("c@d.com").data] ("Subj\r\nX").data
        ("line1\nline2").data)
      = [("From").data ++ (": ").data ++ ("a@b.com").data,
         ("To").data ++ (": ").data
           ++ List.intercalate (", ").data [("c@d.com").data],
         ("Subject").data ++ (": ").data ++ sanitizeHeader ("Subj\r\nX").data,
         ("Date").data ++ (": ").data ++ ("Mon, 01 Jan 2024 00:00:00 +0000").data,
         ("MIME-Version").data ++ (": ").data ++ ("1.0").data,
         ("Content-Type").data ++ (": ").data
           ++ ("text/plain; charset=\"utf-8\"").data,
         ("Content-Transfer-Encoding").data ++ (": ").data ++ ("8bit").data] ∧
    crlfStrict (normalizeBody ("line1\nline2").data) = true :=
  ⟨(C4_email_structure ("Mon, 01 Jan 2024 00:00:00 +0000").data ("a@b.com").data
      [("c@d.com").data] ("Subj\r\nX").data ("line1\nline2").data
      (by decide) (by decide) (by decide)).1,
   (C4_email_structure ("Mon, 01 Jan 2024 00:00:00 +0000").data ("a@b.com").data
      [("c@d.com").data] ("Subj\r\nX").data ("line1\nline2").data
      (by decide) (by decide) (by decide)).2.2.1⟩

end Sitelert
